import Mathlib

/-!
Shallow embedding of the DWD field-data capture application's
non-presentational logic, together with theorems checking the
specification's testable properties against it.

Embedded source files:
* `src/components/dashboard/analytics.tsx` (`fetchAnalytics`): time-window
  filtering, status tally, defensive numeric averages, water-quality
  distribution, top-5 locations.
* `src/unnamed/part_001` (`DataList`): the `filteredCaptures` search/status
  filter.
* `src/components/dashboard/capture-form.tsx` (`handleSubmit`): sequential
  photo upload followed by a single record insert.

Modelling conventions: JavaScript numbers are embedded as exact rationals
(`ℚ`); timestamps (`Date.getTime()` / `Date.now()`) are integers counting
milliseconds; a JavaScript object used as a string-keyed counter map is an
insertion-ordered association list, matching the engine's string-key
iteration order; the external Supabase storage and database clients are
parameters (per-call success flags, a public-URL function) and an explicit
trace of issued calls.  The locale-formatted `capturesByMonth` grouping is
not modelled (its grouping key comes from `toLocaleDateString`, and no
checked property mentions it).
-/

namespace DwdCapture

/-- Measurement payload stored under the record's `data` key
(`CaptureRecord.data` in `src/unnamed/part_001`, built by `handleSubmit` in
`capture-form.tsx`).  All measurement fields are free-text strings. -/
structure CaptureData where
  location : String
  date : String
  time : String
  temperature : String
  humidity : String
  windSpeed : String
  waterLevel : String
  waterQuality : String
  observations : String
  photoUrls : List String
deriving DecidableEq

/-- A stored capture record as fetched from the `captures` table
(interface `CaptureRecord` in `src/unnamed/part_001`).  `created_at` is the
parsed timestamp (`new Date(capture.created_at).getTime()`), in
milliseconds. -/
structure CaptureRecord where
  id : String
  title : String
  description : Option String
  status : String
  created_at : Int
  data : CaptureData
deriving DecidableEq

/-- Result of the aggregation routine (interface `AnalyticsData` in
`analytics.tsx`), minus the locale-keyed `capturesByMonth` grouping, which
is not modelled. -/
structure AnalyticsData where
  totalCaptures : Nat
  capturesByStatus : List (String × Nat)
  averageTemperature : ℚ
  averageHumidity : ℚ
  averageWindSpeed : ℚ
  averageWaterLevel : ℚ
  waterQualityDistribution : List (String × Nat)
  topLocations : List (String × Nat)

/-! ### A model of JavaScript `Number(string)`

`fetchAnalytics` guards every numeric field with
`c.data.x && !isNaN(Number(c.data.x))`.  `jsNumber` models `Number` on
decimal string notation: leading/trailing whitespace is trimmed, the empty
string converts to `0`, otherwise the string must be an optionally signed
decimal literal (integer part, optional fraction, optional exponent);
anything else is NaN, modelled as `none`.  (The hexadecimal/binary/octal
and `Infinity` forms accepted by the JavaScript builtin are not modelled;
no checked property uses them.) -/

/-- Strips leading and trailing whitespace from a character list (the
whitespace trimming `Number` performs before parsing). -/
def trimWs (cs : List Char) : List Char :=
  ((cs.dropWhile Char.isWhitespace).reverse.dropWhile Char.isWhitespace).reverse

/-- Splits a leading run of decimal digits off a character list. -/
def splitDigits : List Char → List Char × List Char
  | [] => ([], [])
  | c :: cs =>
    if c.isDigit then
      let p := splitDigits cs
      (c :: p.1, p.2)
    else ([], c :: cs)

/-- Numeric value of a list of decimal digits. -/
def digitsVal (ds : List Char) : Nat :=
  ds.foldl (fun a c => 10 * a + (c.toNat - 48)) 0

/-- Consumes an optional leading sign; returns whether the value is negated
and the remaining characters. -/
def consumeSign : List Char → Bool × List Char
  | '+' :: cs => (false, cs)
  | '-' :: cs => (true, cs)
  | cs => (false, cs)

/-- Parses a complete signed decimal-digit string (used for the exponent);
fails on an empty digit run or trailing characters. -/
def signedDigits (cs : List Char) : Option Int :=
  let s := consumeSign cs
  let p := splitDigits s.2
  if p.1 = [] ∨ p.2 ≠ [] then none
  else some (if s.1 then -(digitsVal p.1 : Int) else (digitsVal p.1 : Int))

/-- Parses the optional exponent suffix (`e`/`E` then a signed integer);
an absent suffix is exponent `0`. -/
def expSuffix : List Char → Option Int
  | [] => some 0
  | 'e' :: cs => signedDigits cs
  | 'E' :: cs => signedDigits cs
  | _ => none

/-- Model of JavaScript `Number` on a string: `none` is NaN. -/
def jsNumber (s : String) : Option ℚ :=
  let cs := trimWs s.data
  if cs = [] then some 0
  else
    let sg := consumeSign cs
    let ip := splitDigits sg.2
    let fr : List Char × List Char :=
      match ip.2 with
      | '.' :: rest => splitDigits rest
      | _ => ([], ip.2)
    if ip.1 = [] ∧ fr.1 = [] then none
    else
      match expSuffix fr.2 with
      | none => none
      | some e =>
        let mant : ℚ := (digitsVal ip.1 : ℚ) + (digitsVal fr.1 : ℚ) / (10 : ℚ) ^ fr.1.length
        let val : ℚ := mant * (10 : ℚ) ^ e
        some (if sg.1 then -val else val)

/-- The numeric value `Number(s)` summed by the average loops; defined on
all strings (`0` in the NaN case, which the valid-value filters rule
out). -/
def numberOrZero (s : String) : ℚ := (jsNumber s).getD 0

/-- The validity guard `c.data.x && !isNaN(Number(c.data.x))` from the
average computations in `fetchAnalytics`: the string is truthy (non-empty)
and converts to a number. -/
def isValidNumeric (s : String) : Bool := (s != "") && (jsNumber s).isSome

/-! ### JavaScript objects as counter maps

`fetchAnalytics` accumulates counts in plain objects via
`m[k] = (m[k] || 0) + 1`.  String keys iterate in insertion order, so the
object is an association list: `bump` increments an existing key in place
or appends a fresh one. -/

/-- Increment the count stored under `k`, inserting `(k, 1)` at the end if
`k` is absent.  Keys stay unique and keep their insertion order. -/
def bump (k : String) : List (String × Nat) → List (String × Nat)
  | [] => [(k, 1)]
  | e :: rest => if e.1 = k then (e.1, e.2 + 1) :: rest else e :: bump k rest

/-- Count stored under `k`, or `0` when `k` is absent (`m[k] || 0`). -/
def lookupCount (k : String) : List (String × Nat) → Nat
  | [] => 0
  | e :: rest => if e.1 = k then e.2 else lookupCount k rest

/-! ### The aggregation routine (`fetchAnalytics` in `analytics.tsx`) -/

/-- Milliseconds per day, the divisor `1000 * 60 * 60 * 24`. -/
def msPerDay : ℚ := 1000 * 60 * 60 * 24

/-- The value `daysAgo` computed for one record:
`(Date.now() - captureDate.getTime()) / (1000 * 60 * 60 * 24)`. -/
def daysAgo (now t : Int) : ℚ := ((now - t : Int) : ℚ) / msPerDay

/-- The in-memory window filter: keep the records with
`daysAgo <= parseInt(timeRange)`. -/
def windowFilter (now : Int) (w : Nat) (cs : List CaptureRecord) : List CaptureRecord :=
  cs.filter fun c => decide (daysAgo now c.created_at ≤ (w : ℚ))

/-- Status tally: `capturesByStatus[c.status] = (… || 0) + 1` over the
filtered records. -/
def statusTally (cs : List CaptureRecord) : List (String × Nat) :=
  cs.foldl (fun m c => bump c.status m) []

/-- The records whose field `f` passes the validity guard (the
`validTemps` / `validHumidity` / … lists). -/
def validFor (f : CaptureData → String) (cs : List CaptureRecord) : List CaptureRecord :=
  cs.filter fun c => isValidNumeric (f c.data)

/-- The defensive arithmetic mean of field `f`:
`valid.reduce((sum, c) => sum + Number(…), 0) / valid.length` when any
valid value exists, else `0`. -/
def averageField (f : CaptureData → String) (cs : List CaptureRecord) : ℚ :=
  let valid := validFor f cs
  if 0 < valid.length then
    (valid.foldl (fun s c => s + numberOrZero (f c.data)) 0) / (valid.length : ℚ)
  else 0

/-- Water-quality tally: records with a truthy (non-empty) `waterQuality`
are counted under that string; the guard is only
`if (capture.data.waterQuality)`. -/
def wqTally (cs : List CaptureRecord) : List (String × Nat) :=
  cs.foldl (fun m c => if c.data.waterQuality != "" then bump c.data.waterQuality m else m) []

/-- Location tally (`locationCounts`): records with a truthy (non-empty)
`location` are counted under that string. -/
def locTally (cs : List CaptureRecord) : List (String × Nat) :=
  cs.foldl (fun m c => if c.data.location != "" then bump c.data.location m else m) []

/-- The comparator `(a, b) => b.count - a.count`: `a` may stay before `b`
exactly when `b.count ≤ a.count`. -/
def locDescLe (a b : String × Nat) : Bool := decide (b.2 ≤ a.2)

/-- `Object.entries(locationCounts)` sorted descending by count with the
engine's stable `Array.prototype.sort`, modelled by the stable
`List.mergeSort`. -/
def sortedLocEntries (cs : List CaptureRecord) : List (String × Nat) :=
  List.mergeSort (locTally cs) locDescLe

/-- The top-locations list: the sorted entries truncated by `.slice(0, 5)`. -/
def topLocations (cs : List CaptureRecord) : List (String × Nat) :=
  (sortedLocEntries cs).take 5

/-- The whole aggregation: filter the fetched records to the selected
window, then compute every summary field of `AnalyticsData`. -/
def computeAnalytics (now : Int) (w : Nat) (captures : List CaptureRecord) : AnalyticsData :=
  let filtered := windowFilter now w captures
  { totalCaptures := filtered.length
    capturesByStatus := statusTally filtered
    averageTemperature := averageField CaptureData.temperature filtered
    averageHumidity := averageField CaptureData.humidity filtered
    averageWindSpeed := averageField CaptureData.windSpeed filtered
    averageWaterLevel := averageField CaptureData.waterLevel filtered
    waterQualityDistribution := wqTally filtered
    topLocations := topLocations filtered }

/-- The fixed category set offered by the water-quality select control in
`capture-form.tsx`. -/
def waterQualityOptions : List String :=
  ["excellent", "good", "fair", "poor", "very-poor"]

/-- Modelled from the spec, for comparison with `wqTally` (not from the
source): the distribution as the testable property words it, with records
whose category is absent or not in the fixed categorical set omitted. -/
def claimedWqTally (cs : List CaptureRecord) : List (String × Nat) :=
  cs.foldl (fun m c => if c.data.waterQuality ∈ waterQualityOptions then bump c.data.waterQuality m else m) []

/-! ### The listing filter (`filteredCaptures` in `src/unnamed/part_001`)

`String.prototype.includes` is modelled by a direct scanning search over
the character list. -/

/-- Whether `needle` is literally the start of `hay`. -/
def isStartOf : List Char → List Char → Bool
  | [], _ => true
  | _ :: _, [] => false
  | a :: as, b :: bs => a = b && isStartOf as bs

/-- Whether `needle` occurs contiguously anywhere in `hay`: the scanning
search behind `hay.includes(needle)`. -/
def scanFor (needle : List Char) : List Char → Bool
  | [] => isStartOf needle []
  | b :: bs => isStartOf needle (b :: bs) || scanFor needle bs

/-- Model of `s.includes(sub)` on strings. -/
def jsIncludes (s sub : String) : Bool := scanFor sub.data s.data

/-- The `matchesSearch` predicate:
`title.toLowerCase().includes(term.toLowerCase()) ||
 data.location.toLowerCase().includes(term.toLowerCase())`. -/
def matchesSearch (term : String) (c : CaptureRecord) : Bool :=
  jsIncludes c.title.toLower term.toLower || jsIncludes c.data.location.toLower term.toLower

/-- The `matchesStatus` predicate:
`statusFilter === 'all' || capture.status === statusFilter`. -/
def matchesStatus (statusFilter : String) (c : CaptureRecord) : Bool :=
  statusFilter == "all" || c.status == statusFilter

/-- `filteredCaptures`: both predicates combined with `&&` over the
in-memory record list. -/
def filteredCaptures (term statusFilter : String) (cs : List CaptureRecord) : List CaptureRecord :=
  cs.filter fun c => matchesSearch term c && matchesStatus statusFilter c

/-! ### Form submission (`handleSubmit` in `capture-form.tsx`)

The Supabase storage and database clients are external; the model takes
the per-upload success flags, the insert success flag and the public-URL
accessor as parameters, and records every issued call in a trace.  The
trace action type includes the client's `remove` operation (never issued
by this code) so that the absence of compensating deletions is a statement
about the trace, not about the type. -/

/-- An attached image file; only its name reaches the embedded logic. -/
structure Photo where
  name : String
deriving DecidableEq

/-- The row passed to `supabase.from('captures').insert({...})`. -/
structure CaptureInsert where
  user_id : String
  title : String
  description : String
  data : CaptureData
  status : String
deriving DecidableEq

/-- The form state driving a submission (interface `CaptureFormData`). -/
structure CaptureFormData where
  title : String
  description : String
  location : String
  date : String
  time : String
  temperature : String
  humidity : String
  windSpeed : String
  waterLevel : String
  waterQuality : String
  observations : String
  photos : List Photo
deriving DecidableEq

/-- One outbound call to the external storage or database client. -/
inductive StorageAction where
  | upload (bucket fileName : String)
  | publicUrlOf (bucket fileName : String)
  | remove (bucket : String) (fileNames : List String)
  | insert (table : String) (row : CaptureInsert)
deriving DecidableEq

/-- Recognises the database-insert action in a trace. -/
def isInsertAct : StorageAction → Bool
  | StorageAction.insert _ _ => true
  | _ => false

/-- The storage object name `` `${Date.now()}-${photo.name}` ``. -/
def photoFileName (now : Int) (p : Photo) : String :=
  toString now ++ "-" ++ p.name

/-- The sequential upload loop over `formData.photos`.  `i` is the index of
the next photo; `nowAt i` is the `Date.now()` reading at that iteration and
`uploadOk i` whether that upload succeeds.  Returns the calls issued and,
unless some upload failed (which throws out of the loop), the accumulated
public URLs in upload order. -/
def uploadLoop (nowAt : Nat → Int) (uploadOk : Nat → Bool) (publicUrl : String → String) :
    List Photo → Nat → List StorageAction × Option (List String)
  | [], _ => ([], some [])
  | p :: ps, i =>
    let fn := photoFileName (nowAt i) p
    if uploadOk i then
      let rest := uploadLoop nowAt uploadOk publicUrl ps (i + 1)
      (StorageAction.upload "capture-photos" fn :: StorageAction.publicUrlOf "capture-photos" fn :: rest.1,
        rest.2.map fun urls => publicUrl fn :: urls)
    else
      ([StorageAction.upload "capture-photos" fn], none)

/-- The whole submission: upload every photo, then insert a single row
with `status: 'draft'` and the collected field values nested under `data`.
Returns the call trace and, when the insert was issued and succeeded, the
created row. -/
def handleSubmit (userId : String) (nowAt : Nat → Int) (uploadOk : Nat → Bool)
    (publicUrl : String → String) (insertOk : Bool) (form : CaptureFormData) :
    List StorageAction × Option CaptureInsert :=
  let up := uploadLoop nowAt uploadOk publicUrl form.photos 0
  match up.2 with
  | none => (up.1, none)
  | some urls =>
    let row : CaptureInsert :=
      { user_id := userId
        title := form.title
        description := form.description
        data :=
          { location := form.location
            date := form.date
            time := form.time
            temperature := form.temperature
            humidity := form.humidity
            windSpeed := form.windSpeed
            waterLevel := form.waterLevel
            waterQuality := form.waterQuality
            observations := form.observations
            photoUrls := urls }
        status := "draft" }
    (up.1 ++ [StorageAction.insert "captures" row], if insertOk then some row else none)

/-! ### Concrete inputs for the specification's check scenarios -/

/-- Measurement payload with every field left blank. -/
def blankData : CaptureData :=
  ⟨"", "", "", "", "", "", "", "", "", []⟩

/-- A record whose temperature reads `"20"`. -/
def recTemp20 : CaptureRecord :=
  ⟨"r1", "Survey 1", none, "draft", 0, { blankData with temperature := "20" }⟩

/-- A record whose temperature reads the non-numeric `"bad"`. -/
def recTempBad : CaptureRecord :=
  ⟨"r2", "Survey 2", none, "draft", 0, { blankData with temperature := "bad" }⟩

/-- A record whose water-quality string is outside the fixed category
set. -/
def recPurple : CaptureRecord :=
  ⟨"r3", "Survey 3", none, "draft", 0, { blankData with waterQuality := "purple" }⟩

/-- A record created one day before fetch time `0`. -/
def recDay1 : CaptureRecord :=
  ⟨"d1", "Survey 4", none, "draft", -86400000, blankData⟩

/-- A record created six days before fetch time `0`. -/
def recDay6 : CaptureRecord :=
  ⟨"d2", "Survey 5", none, "submitted", -518400000, blankData⟩

/-- A record created eight days before fetch time `0`, outside a 7-day
window. -/
def recDay8 : CaptureRecord :=
  ⟨"d3", "Survey 6", none, "draft", -691200000, blankData⟩

/-- The submission scenario: title `"Site A"`, location `"Lake X"`, no
optional fields, zero photos. -/
def formSiteA : CaptureFormData :=
  ⟨"Site A", "", "Lake X", "2026-10-12", "09:00", "", "", "", "", "", "", []⟩

/-- A submission with a single attached photo. -/
def formOnePhoto : CaptureFormData :=
  { formSiteA with photos := [⟨"p.jpg"⟩] }

/-- A constant clock for the concrete submission runs. -/
def constClock : Nat → Int := fun _ => 0

/-- Per-upload success flags: every upload succeeds. -/
def alwaysOk : Nat → Bool := fun _ => true

/-- Per-upload success flags: every upload fails. -/
def neverOk : Nat → Bool := fun _ => false

/-- A concrete public-URL accessor for the scenario runs. -/
def urlOf : String → String := fun fn => "https://cdn.example/" ++ fn

/-! ## Helper lemmas -/

/-- Incrementing one key raises the sum of all stored counts by one. -/
theorem bump_sndSum (k : String) (m : List (String × Nat)) :
    ((bump k m).map Prod.snd).sum = (m.map Prod.snd).sum + 1 := by
  induction m with
  | nil => simp [bump]
  | cons e rest ih =>
    by_cases h : e.1 = k
    · simp [bump, h]
      omega
    · simp [bump, h, ih]
      omega

/-- Folding the status tally over any record list adds one count per
record to the sum of stored counts. -/
theorem statusTally_foldl_sum (cs : List CaptureRecord) :
    ∀ m : List (String × Nat),
      ((cs.foldl (fun m c => bump c.status m) m).map Prod.snd).sum
        = (m.map Prod.snd).sum + cs.length := by
  induction cs with
  | nil => intro m; simp
  | cons c rest ih =>
    intro m
    simp only [List.foldl_cons, List.length_cons]
    rw [ih, bump_sndSum]
    omega

/-- A string that `Number` rejects fails the validity guard. -/
theorem isValidNumeric_of_none (s : String) (h : jsNumber s = none) :
    isValidNumeric s = false := by
  simp [isValidNumeric, h]

/-- Evaluation of the model on the scenario string `"20"`. -/
theorem jsNumber_twenty : jsNumber "20" = some 20 := by
  have h : jsNumber "20"
      = some (((digitsVal ['2', '0'] : ℚ) + (digitsVal ([] : List Char) : ℚ)
          / 10 ^ (([] : List Char).length)) * 10 ^ (0 : Int)) := rfl
  have h2 : digitsVal ['2', '0'] = 20 := rfl
  have h0 : digitsVal ([] : List Char) = 0 := rfl
  rw [h, h2, h0]
  norm_num

/-! ## Claim theorems -/

/-- C1: for every record list and every time window, the sum over all
status groups of the per-status counts computed by the aggregation equals
the total count of window-filtered records. -/
theorem statusCounts_sum_eq_total (now : Int) (w : Nat) (cs : List CaptureRecord) :
    (((computeAnalytics now w cs).capturesByStatus).map Prod.snd).sum
      = (computeAnalytics now w cs).totalCaptures := by
  simp only [computeAnalytics, statusTally]
  rw [statusTally_foldl_sum]
  simp

/-- C2: a record whose string value for a numeric measurement field is
non-numeric is excluded from that field's arithmetic mean and does not
contribute to the denominator: dropping it from the record list changes
neither the mean nor the valid-value list. -/
theorem invalid_excluded_from_average
    (f : CaptureData → String) (pre post : List CaptureRecord) (r : CaptureRecord)
    (h : jsNumber (f r.data) = none) :
    averageField f (pre ++ r :: post) = averageField f (pre ++ post) ∧
    validFor f (pre ++ r :: post) = validFor f (pre ++ post) := by
  have hv : isValidNumeric (f r.data) = false := isValidNumeric_of_none _ h
  have hfil : validFor f (pre ++ r :: post) = validFor f (pre ++ post) := by
    simp [validFor, List.filter_append, List.filter_cons, hv]
  exact ⟨by simp only [averageField, hfil], hfil⟩

/-- C2 witness: with two records reading `"20"` and `"bad"`, the invalid
one is dropped, the average temperature is exactly `20` and the
denominator is `1`. -/
theorem invalid_excluded_from_average_witness :
    jsNumber (CaptureData.temperature recTempBad.data) = none ∧
    averageField CaptureData.temperature [recTemp20, recTempBad]
      = averageField CaptureData.temperature [recTemp20] ∧
    averageField CaptureData.temperature [recTemp20, recTempBad] = 20 ∧
    (validFor CaptureData.temperature [recTemp20, recTempBad]).length = 1 := by
  have hbad : jsNumber (CaptureData.temperature recTempBad.data) = none := rfl
  have hmain := (invalid_excluded_from_average CaptureData.temperature [recTemp20] [] recTempBad hbad).1
  simp only [List.singleton_append, List.append_nil] at hmain
  refine ⟨hbad, hmain, ?_, ?_⟩
  · rw [hmain]
    have hval : validFor CaptureData.temperature [recTemp20] = [recTemp20] := by decide
    rw [averageField, hval]
    simp only [List.length_cons, List.length_nil, List.foldl_cons, List.foldl_nil]
    rw [if_pos (by omega)]
    have : numberOrZero (CaptureData.temperature recTemp20.data) = 20 := by
      have : CaptureData.temperature recTemp20.data = "20" := rfl
      rw [numberOrZero, this, jsNumber_twenty]
      rfl
    rw [this]
    norm_num
  · decide

/-- C9: when no record in the list has a valid numeric value for a field,
the computed mean for that field is exactly `0`. -/
theorem mean_of_no_valid_values (f : CaptureData → String) (cs : List CaptureRecord)
    (h : ∀ r ∈ cs, isValidNumeric (f r.data) = false) :
    averageField f cs = 0 := by
  have hnil : validFor f cs = [] :=
    List.filter_eq_nil_iff.mpr (by intro a ha; simp [h a ha])
  simp [averageField, hnil]

/-- C9 witness: a list whose only record reads `"bad"` for temperature has
average temperature `0`. -/
theorem mean_of_no_valid_values_witness :
    (∀ r ∈ [recTempBad], isValidNumeric (CaptureData.temperature r.data) = false) ∧
    averageField CaptureData.temperature [recTempBad] = 0 := by
  have h : ∀ r ∈ [recTempBad], isValidNumeric (CaptureData.temperature r.data) = false := by
    decide
  exact ⟨h, mean_of_no_valid_values CaptureData.temperature [recTempBad] h⟩

/-- The rational `daysAgo` comparison agrees with the integer
millisecond comparison. -/
theorem daysAgo_le_iff (now t : Int) (w : Nat) :
    daysAgo now t ≤ (w : ℚ) ↔ now - t ≤ (w : Int) * 86400000 := by
  have h1 : (0 : ℚ) < msPerDay := by norm_num [msPerDay]
  rw [daysAgo, div_le_iff₀ h1]
  rw [show ((w : ℚ) * msPerDay) = (((w : Int) * 86400000 : Int) : ℚ) by
    push_cast [msPerDay]; ring]
  exact Int.cast_le

/-- The window filter restated with the equivalent integer-millisecond
predicate; this form evaluates on concrete inputs. -/
theorem windowFilter_eq_intFilter (now : Int) (w : Nat) (cs : List CaptureRecord) :
    windowFilter now w cs
      = cs.filter fun c => decide (now - c.created_at ≤ (w : Int) * 86400000) := by
  apply List.filter_congr
  intro c _
  exact decide_eq_decide.mpr (daysAgo_le_iff now c.created_at w)

/-- C5: for every window parameter drawn from the selector's fixed set,
the aggregation keeps exactly the records whose creation time lies within
`w` days of the fetch time, as a wall-clock difference in milliseconds. -/
theorem windowFilter_keeps_within (now : Int) (w : Nat) (cs : List CaptureRecord)
    (r : CaptureRecord) (hw : w = 7 ∨ w = 30 ∨ w = 90 ∨ w = 365) :
    r ∈ windowFilter now w cs ↔ r ∈ cs ∧ now - r.created_at ≤ (w : Int) * 86400000 := by
  rw [windowFilter, List.mem_filter]
  simp only [decide_eq_true_iff]
  rw [daysAgo_le_iff]

/-- C5 witness: with window `7` and three records of which two lie within
seven days of the fetch time, the in-window membership test holds for the
one-day-old record and the total count is `2`. -/
theorem windowFilter_keeps_within_witness :
    ((7 : Nat) = 7 ∨ (7 : Nat) = 30 ∨ (7 : Nat) = 90 ∨ (7 : Nat) = 365) ∧
    (recDay1 ∈ windowFilter 0 7 [recDay1, recDay6, recDay8] ↔
      recDay1 ∈ [recDay1, recDay6, recDay8] ∧
        (0 : Int) - recDay1.created_at ≤ (7 : Int) * 86400000) ∧
    (computeAnalytics 0 7 [recDay1, recDay6, recDay8]).totalCaptures = 2 := by
  refine ⟨Or.inl rfl,
    windowFilter_keeps_within 0 7 [recDay1, recDay6, recDay8] recDay1 (Or.inl rfl), ?_⟩
  show (windowFilter 0 7 [recDay1, recDay6, recDay8]).length = 2
  rw [windowFilter_eq_intFilter]
  decide

/-- Incrementing key `q` raises the count looked up at `k` by one exactly
when `q = k`, and leaves it unchanged otherwise. -/
theorem lookupCount_bump (k q : String) (m : List (String × Nat)) :
    lookupCount k (bump q m) = lookupCount k m + (if q = k then 1 else 0) := by
  induction m with
  | nil => by_cases h : q = k <;> simp [bump, lookupCount, h]
  | cons e rest ih =>
    by_cases h1 : e.1 = q
    · by_cases h2 : q = k <;> simp [bump, lookupCount, h1, h2]
    · simp only [bump, h1, if_neg]
      by_cases h2 : e.1 = k
      · have hqk : ¬q = k := fun hq => h1 (h2.trans hq.symm)
        simp [lookupCount, h2, hqk]
      · simp [lookupCount, h2, ih]

/-- Unfolding the water-quality fold: the looked-up count of any key `k`
grows by the number of records whose category equals `k`, except that the
empty (absent) category is never counted. -/
theorem wqTally_foldl_lookup (k : String) (cs : List CaptureRecord) :
    ∀ acc : List (String × Nat),
      lookupCount k (cs.foldl
          (fun m c => if c.data.waterQuality != "" then bump c.data.waterQuality m else m) acc)
        = lookupCount k acc
          + (if k = "" then 0 else cs.countP fun c => c.data.waterQuality == k) := by
  induction cs with
  | nil => intro acc; simp
  | cons c rest ih =>
    intro acc
    simp only [List.foldl_cons]
    rw [ih]
    by_cases hq : c.data.waterQuality = ""
    · rw [if_neg (by simp [hq])]
      by_cases hk : k = ""
      · simp [hk]
      · have hne : ("" == k) = false := beq_eq_false_iff_ne.mpr fun h => hk h.symm
        simp [hk, List.countP_cons, hq, hne]
    · rw [if_pos (by simpa [bne_iff_ne] using hq), lookupCount_bump]
      by_cases hk : k = ""
      · have hqk : ¬c.data.waterQuality = k := fun h => hq (h.trans hk)
        simp [hk, hqk, hq]
      · by_cases hqk : c.data.waterQuality = k <;>
          simp [hk, hqk, List.countP_cons] <;> omega

/-- C10 (amended): the water-quality distribution counts, at every
non-empty key `k`, exactly the window-filtered records whose category
string equals `k` — whether or not `k` belongs to the fixed categorical
set — and records with an absent (empty) category are omitted. -/
theorem wqDistribution_counts (now : Int) (w : Nat) (cs : List CaptureRecord) (k : String) :
    lookupCount k ((computeAnalytics now w cs).waterQualityDistribution)
      = if k = "" then 0
        else (windowFilter now w cs).countP fun c => c.data.waterQuality == k := by
  show lookupCount k (wqTally (windowFilter now w cs)) = _
  rw [wqTally, wqTally_foldl_lookup]
  simp [lookupCount]

/-- C10 counterexample: a record whose category string `"purple"` is not
in the fixed categorical set is nevertheless counted by the code, so the
computed distribution differs from the claimed one, which omits it. -/
theorem wqDistribution_invalid_counted :
    (computeAnalytics 0 7 [recPurple]).waterQualityDistribution
        ≠ claimedWqTally (windowFilter 0 7 [recPurple]) ∧
    (computeAnalytics 0 7 [recPurple]).waterQualityDistribution = [("purple", 1)] ∧
    claimedWqTally (windowFilter 0 7 [recPurple]) = [] := by
  have he := windowFilter_eq_intFilter 0 7 [recPurple]
  refine ⟨?_, ?_, ?_⟩
  · show wqTally (windowFilter 0 7 [recPurple]) ≠ _
    rw [he]
    decide
  · show wqTally (windowFilter 0 7 [recPurple]) = _
    rw [he]
    decide
  · rw [he]
    decide

/-- The descending-count comparator is transitive. -/
theorem locDescLe_trans :
    ∀ a b c : String × Nat, locDescLe a b = true → locDescLe b c = true → locDescLe a c = true := by
  intro a b c hab hbc
  simp only [locDescLe, decide_eq_true_iff] at *
  omega

/-- The descending-count comparator is total. -/
theorem locDescLe_total :
    ∀ a b : String × Nat, (locDescLe a b || locDescLe b a) = true := by
  intro a b
  simp only [locDescLe, Bool.or_eq_true, decide_eq_true_iff]
  omega

/-- The sorted location entries are pairwise descending in count. -/
theorem sortedLocEntries_pairwise (cs : List CaptureRecord) :
    List.Pairwise (fun a b : String × Nat => b.2 ≤ a.2) (sortedLocEntries cs) := by
  have h := List.sorted_mergeSort locDescLe_trans locDescLe_total (locTally cs)
  exact h.imp fun hab => by simpa [locDescLe] using hab

/-- Stability of the location sort: among entries with any one equal
count, the sorted list preserves the original iteration order of the
tally, so the two lists filtered to that count coincide. -/
theorem sortedLocEntries_stable (cs : List CaptureRecord) (n : Nat) :
    (sortedLocEntries cs).filter (fun e => e.2 == n)
      = (locTally cs).filter (fun e => e.2 == n) := by
  have hmemn : ∀ a ∈ (locTally cs).filter (fun e => e.2 == n), a.2 = n := by
    intro a ha
    simpa using List.of_mem_filter ha
  have hpw : List.Pairwise (fun a b => locDescLe a b = true)
      ((locTally cs).filter (fun e => e.2 == n)) := by
    apply List.pairwise_of_forall_mem_list
    intro a ha b hb
    simp [locDescLe, hmemn a ha, hmemn b hb]
  have hsub : List.Sublist ((locTally cs).filter (fun e => e.2 == n)) (sortedLocEntries cs) :=
    List.sublist_mergeSort locDescLe_trans locDescLe_total hpw
      (List.filter_sublist (locTally cs))
  have hsub2 : List.Sublist ((locTally cs).filter (fun e => e.2 == n))
      ((sortedLocEntries cs).filter (fun e => e.2 == n)) := by
    have h1 := hsub.filter (fun e => e.2 == n)
    rwa [List.filter_eq_self.mpr (by intro a ha; simpa using hmemn a ha)] at h1
  have hlen : ((locTally cs).filter (fun e => e.2 == n)).length
      = ((sortedLocEntries cs).filter (fun e => e.2 == n)).length :=
    (((List.mergeSort_perm (locTally cs) locDescLe).filter (fun e => e.2 == n)).length_eq).symm
  exact (hsub2.eq_of_length hlen).symm

/-- C6: the top-locations list has length at most `5`, is sorted by
descending frequency count, and ties among equal counts keep the tally's
original iteration order (the sorted entries filtered to any one count
equal the tally filtered to that count). -/
theorem topLocations_spec (now : Int) (w : Nat) (cs : List CaptureRecord) :
    (computeAnalytics now w cs).topLocations.length ≤ 5 ∧
    List.Pairwise (fun a b : String × Nat => b.2 ≤ a.2)
      (computeAnalytics now w cs).topLocations ∧
    ∀ n : Nat, (sortedLocEntries (windowFilter now w cs)).filter (fun e => e.2 == n)
      = (locTally (windowFilter now w cs)).filter (fun e => e.2 == n) := by
  refine ⟨?_, ?_, fun n => sortedLocEntries_stable (windowFilter now w cs) n⟩
  · show (topLocations (windowFilter now w cs)).length ≤ 5
    exact List.length_take_le 5 _
  · show List.Pairwise _ (topLocations (windowFilter now w cs))
    exact (sortedLocEntries_pairwise (windowFilter now w cs)).take

/-- C7: the listing filter keeps a record exactly when the search
predicate matches and the status is the selected one (with `"all"`
imposing no restriction); filtering by `"all"` is the pure search
filter. -/
theorem filteredCaptures_spec (term statusFilter : String) (cs : List CaptureRecord) :
    (∀ c, c ∈ filteredCaptures term statusFilter cs ↔
      c ∈ cs ∧ matchesSearch term c = true ∧
        (statusFilter = "all" ∨ c.status = statusFilter)) ∧
    filteredCaptures term "all" cs = cs.filter fun c => matchesSearch term c := by
  constructor
  · intro c
    rw [filteredCaptures, List.mem_filter]
    simp [matchesStatus, Bool.and_eq_true, Bool.or_eq_true, and_assoc]
  · apply List.filter_congr
    intro c _
    simp [matchesStatus]

/-- Correctness of the scanning search start: `isStartOf` decides the
list-prefix relation. -/
theorem isStartOf_iff (n h : List Char) : isStartOf n h = true ↔ n <+: h := by
  induction n generalizing h with
  | nil =>
    simp only [isStartOf]
    exact iff_of_true trivial ⟨h, rfl⟩
  | cons a as ih =>
    cases h with
    | nil => simp [isStartOf, List.prefix_nil]
    | cons b bs => simp [isStartOf, List.cons_prefix_cons, ih]

/-- Correctness of the scanning search: `scanFor` decides the contiguous
substring (infix) relation. -/
theorem scanFor_iff (n h : List Char) : scanFor n h = true ↔ n <:+: h := by
  induction h with
  | nil =>
    simp only [scanFor]
    rw [isStartOf_iff]
    simp [List.prefix_nil, List.infix_nil]
  | cons b bs ih =>
    simp only [scanFor, Bool.or_eq_true]
    rw [isStartOf_iff, ih, List.infix_cons_iff]

/-- C8: the listing's search predicate matches a record exactly when the
lower-cased term occurs contiguously in the lower-cased title or in the
lower-cased location. -/
theorem matchesSearch_spec (term : String) (c : CaptureRecord) :
    matchesSearch term c = true ↔
      (term.toLower.data <:+: c.title.toLower.data ∨
        term.toLower.data <:+: c.data.location.toLower.data) := by
  rw [matchesSearch, Bool.or_eq_true, jsIncludes, jsIncludes, scanFor_iff, scanFor_iff]

/-- Every call the upload loop issues is a storage upload or a public-URL
lookup. -/
theorem uploadLoop_actions_shape (nowAt : Nat → Int) (uploadOk : Nat → Bool)
    (publicUrl : String → String) (ps : List Photo) :
    ∀ i, ∀ a ∈ (uploadLoop nowAt uploadOk publicUrl ps i).1,
      (∃ b fn, a = StorageAction.upload b fn) ∨
      (∃ b fn, a = StorageAction.publicUrlOf b fn) := by
  induction ps with
  | nil => intro i a ha; simp [uploadLoop] at ha
  | cons p rest ih =>
    intro i a ha
    simp only [uploadLoop] at ha
    by_cases hk : uploadOk i = true
    · rw [if_pos hk] at ha
      simp only [List.mem_cons] at ha
      rcases ha with h | h | h
      · exact Or.inl ⟨_, _, h⟩
      · exact Or.inr ⟨_, _, h⟩
      · exact ih (i + 1) a h
    · rw [if_neg hk] at ha
      simp only [List.mem_singleton] at ha
      exact Or.inl ⟨_, _, ha⟩

/-- The upload loop never issues a database insert. -/
theorem uploadLoop_no_insert (nowAt : Nat → Int) (uploadOk : Nat → Bool)
    (publicUrl : String → String) (ps : List Photo) (i : Nat) (t : String)
    (r : CaptureInsert) :
    StorageAction.insert t r ∉ (uploadLoop nowAt uploadOk publicUrl ps i).1 := by
  intro hmem
  rcases uploadLoop_actions_shape nowAt uploadOk publicUrl ps i _ hmem with
    ⟨b, fn, h⟩ | ⟨b, fn, h⟩ <;> exact StorageAction.noConfusion h

/-- The upload loop never issues a storage removal. -/
theorem uploadLoop_no_remove (nowAt : Nat → Int) (uploadOk : Nat → Bool)
    (publicUrl : String → String) (ps : List Photo) (i : Nat) (b : String)
    (ns : List String) :
    StorageAction.remove b ns ∉ (uploadLoop nowAt uploadOk publicUrl ps i).1 := by
  intro hmem
  rcases uploadLoop_actions_shape nowAt uploadOk publicUrl ps i _ hmem with
    ⟨b', fn, h⟩ | ⟨b', fn, h⟩ <;> exact StorageAction.noConfusion h

/-- If some upload in range fails, the loop aborts and yields no URL
list. -/
theorem uploadLoop_fail (nowAt : Nat → Int) (uploadOk : Nat → Bool)
    (publicUrl : String → String) (ps : List Photo) :
    ∀ i, (∃ j, i ≤ j ∧ j < i + ps.length ∧ uploadOk j = false) →
      (uploadLoop nowAt uploadOk publicUrl ps i).2 = none := by
  induction ps with
  | nil =>
    intro i h
    obtain ⟨j, h1, h2, _⟩ := h
    simp only [List.length_nil] at h2
    omega
  | cons p rest ih =>
    intro i h
    obtain ⟨j, h1, h2, h3⟩ := h
    simp only [uploadLoop]
    by_cases hk : uploadOk i = true
    · rw [if_pos hk]
      have hj : i + 1 ≤ j := by
        rcases Nat.eq_or_lt_of_le h1 with he | hl
        · exact absurd (he ▸ hk) (by rw [h3]; exact Bool.false_ne_true)
        · omega
      have hrest := ih (i + 1)
        ⟨j, hj, by simp only [List.length_cons] at h2; omega, h3⟩
      simp [hrest]
    · rw [if_neg hk]

/-- If every upload in range succeeds, the loop returns the public URLs of
the generated file names, in upload order. -/
theorem uploadLoop_success (nowAt : Nat → Int) (uploadOk : Nat → Bool)
    (publicUrl : String → String) (ps : List Photo) :
    ∀ i, (∀ j, i ≤ j → j < i + ps.length → uploadOk j = true) →
      (uploadLoop nowAt uploadOk publicUrl ps i).2
        = some ((List.enumFrom i ps).map fun jp =>
            publicUrl (photoFileName (nowAt jp.1) jp.2)) := by
  induction ps with
  | nil => intro i _; simp [uploadLoop]
  | cons p rest ih =>
    intro i h
    have hi : uploadOk i = true :=
      h i le_rfl (by simp only [List.length_cons]; omega)
    simp only [uploadLoop, hi, if_true]
    rw [ih (i + 1) fun j hj1 hj2 => by
      refine h j (by omega) ?_
      simp only [List.length_cons]
      omega]
    simp [List.enumFrom_cons]

/-- When the upload loop aborts, the submission returns its trace and no
created record. -/
theorem handleSubmit_of_fail (userId : String) (nowAt : Nat → Int)
    (uploadOk : Nat → Bool) (publicUrl : String → String) (insertOk : Bool)
    (form : CaptureFormData)
    (h : (uploadLoop nowAt uploadOk publicUrl form.photos 0).2 = none) :
    handleSubmit userId nowAt uploadOk publicUrl insertOk form
      = ((uploadLoop nowAt uploadOk publicUrl form.photos 0).1, none) := by
  rw [handleSubmit]
  rw [h]

/-- When every upload succeeds, the submission appends exactly one insert
of the composed row to the trace. -/
theorem handleSubmit_of_some (userId : String) (nowAt : Nat → Int)
    (uploadOk : Nat → Bool) (publicUrl : String → String) (insertOk : Bool)
    (form : CaptureFormData) (urls : List String)
    (h : (uploadLoop nowAt uploadOk publicUrl form.photos 0).2 = some urls) :
    handleSubmit userId nowAt uploadOk publicUrl insertOk form
      = ((uploadLoop nowAt uploadOk publicUrl form.photos 0).1
          ++ [StorageAction.insert "captures"
            ⟨userId, form.title, form.description,
              ⟨form.location, form.date, form.time, form.temperature, form.humidity,
                form.windSpeed, form.waterLevel, form.waterQuality, form.observations,
                urls⟩, "draft"⟩],
        if insertOk
          then some ⟨userId, form.title, form.description,
            ⟨form.location, form.date, form.time, form.temperature, form.humidity,
              form.windSpeed, form.waterLevel, form.waterQuality, form.observations,
              urls⟩, "draft"⟩
          else none) := by
  rw [handleSubmit]
  rw [h]

/-- C3: on any failure the submission aborts without creating a partial
record — after an upload failure no insert call appears in the trace and
no record is created — and no compensating storage removal is ever issued,
on any run. -/
theorem submit_abort_no_insert_no_removal (userId : String) (nowAt : Nat → Int)
    (uploadOk : Nat → Bool) (publicUrl : String → String) (insertOk : Bool)
    (form : CaptureFormData) :
    (∀ b ns, StorageAction.remove b ns
        ∉ (handleSubmit userId nowAt uploadOk publicUrl insertOk form).1) ∧
    ((∃ i, i < form.photos.length ∧ uploadOk i = false) →
      (∀ t r, StorageAction.insert t r
          ∉ (handleSubmit userId nowAt uploadOk publicUrl insertOk form).1) ∧
      (handleSubmit userId nowAt uploadOk publicUrl insertOk form).2 = none) := by
  constructor
  · intro b ns hmem
    cases hup : (uploadLoop nowAt uploadOk publicUrl form.photos 0).2 with
    | none =>
      rw [handleSubmit_of_fail userId nowAt uploadOk publicUrl insertOk form hup] at hmem
      exact uploadLoop_no_remove nowAt uploadOk publicUrl form.photos 0 b ns hmem
    | some urls =>
      rw [handleSubmit_of_some userId nowAt uploadOk publicUrl insertOk form urls hup] at hmem
      rcases List.mem_append.mp hmem with h | h
      · exact uploadLoop_no_remove nowAt uploadOk publicUrl form.photos 0 b ns h
      · rw [List.mem_singleton] at h
        exact StorageAction.noConfusion h
  · intro hex
    have hnone : (uploadLoop nowAt uploadOk publicUrl form.photos 0).2 = none := by
      obtain ⟨i, h1, h2⟩ := hex
      exact uploadLoop_fail nowAt uploadOk publicUrl form.photos 0
        ⟨i, Nat.zero_le i, by omega, h2⟩
    rw [handleSubmit_of_fail userId nowAt uploadOk publicUrl insertOk form hnone]
    exact ⟨fun t r => uploadLoop_no_insert nowAt uploadOk publicUrl form.photos 0 t r, rfl⟩

/-- C3 witness: a run whose single upload fails issues no insert, creates
no record, and (by the unconditional conjunct) issues no removal. -/
theorem submit_abort_witness :
    (∃ i, i < formOnePhoto.photos.length ∧ neverOk i = false) ∧
    (∀ t r, StorageAction.insert t r
        ∉ (handleSubmit "user-1" constClock neverOk urlOf false formOnePhoto).1) ∧
    (handleSubmit "user-1" constClock neverOk urlOf false formOnePhoto).2 = none := by
  have hex : ∃ i, i < formOnePhoto.photos.length ∧ neverOk i = false :=
    ⟨0, by decide, rfl⟩
  have h :=
    (submit_abort_no_insert_no_removal "user-1" constClock neverOk urlOf false formOnePhoto).2 hex
  exact ⟨hex, h.1, h.2⟩

/-- C4: a fully successful submission issues exactly one insert, and the
created row has status `"draft"`, carries every collected field value in
its payload, and lists the public URLs of the uploaded images in upload
order. -/
theorem submit_success_single_draft_insert (userId : String) (nowAt : Nat → Int)
    (uploadOk : Nat → Bool) (publicUrl : String → String) (form : CaptureFormData)
    (h : ∀ i, i < form.photos.length → uploadOk i = true) :
    (handleSubmit userId nowAt uploadOk publicUrl true form).1.countP isInsertAct = 1 ∧
    (handleSubmit userId nowAt uploadOk publicUrl true form).2 =
      some ⟨userId, form.title, form.description,
        ⟨form.location, form.date, form.time, form.temperature, form.humidity,
          form.windSpeed, form.waterLevel, form.waterQuality, form.observations,
          form.photos.enum.map fun jp => publicUrl (photoFileName (nowAt jp.1) jp.2)⟩,
        "draft"⟩ := by
  have hs := uploadLoop_success nowAt uploadOk publicUrl form.photos 0
    (fun j hj1 hj2 => h j (by omega))
  have hrw := handleSubmit_of_some userId nowAt uploadOk publicUrl true form _ hs
  rw [hrw]
  constructor
  · rw [List.countP_append]
    have hz : (uploadLoop nowAt uploadOk publicUrl form.photos 0).1.countP isInsertAct = 0 := by
      rw [List.countP_eq_zero]
      intro a ha
      rcases uploadLoop_actions_shape nowAt uploadOk publicUrl form.photos 0 a ha with
        ⟨b, fn, he⟩ | ⟨b, fn, he⟩ <;> simp [he, isInsertAct]
    rw [hz]
    rfl
  · rw [if_pos rfl]
    rfl

/-- C4 witness: submitting the form with title `"Site A"`, location
`"Lake X"`, no optional fields and zero photos yields exactly one
insert, of a row with status `"draft"`, an empty photo-URL sequence, and
the optional numeric fields as provided (empty strings). -/
theorem submit_success_witness :
    (∀ i, i < formSiteA.photos.length → alwaysOk i = true) ∧
    (handleSubmit "user-1" constClock alwaysOk urlOf true formSiteA).1.countP isInsertAct = 1 ∧
    (handleSubmit "user-1" constClock alwaysOk urlOf true formSiteA).2 =
      some ⟨"user-1", "Site A", "",
        ⟨"Lake X", "2026-10-12", "09:00", "", "", "", "", "", "", []⟩, "draft"⟩ := by
  have hyp : ∀ i, i < formSiteA.photos.length → alwaysOk i = true := fun i _ => rfl
  have h := submit_success_single_draft_insert "user-1" constClock alwaysOk urlOf formSiteA hyp
  refine ⟨hyp, h.1, ?_⟩
  rw [h.2]
  rfl

end DwdCapture
